import Mathlib

/-!
Verification development for the Radio Classics schedule parser
(src/scripts/fetch_schedule.py).  Python strings are embedded as
`List Char`; worksheet cells are embedded through the `Grid` structure,
where `none` stands for an empty or Python-falsy cell value.  Every
definition below mirrors the corresponding function of the source file,
keeping its name where Lean allows it.
-/

namespace RC

/-- Characters stripped by Python's default `str.strip()` (ASCII whitespace). -/
def isPySpace (c : Char) : Bool :=
  c = ' ' || c = '\t' || c = '\n' || c = '\r' || c = '\x0b' || c = '\x0c'

/-- Python `str.strip()`: drop whitespace from both ends. -/
def stripL (l : List Char) : List Char :=
  ((l.dropWhile isPySpace).reverse.dropWhile isPySpace).reverse

/-- Python `str.lower()` (ASCII letters). -/
def lowerL (l : List Char) : List Char := l.map Char.toLower

/-- Python `str.upper()` (ASCII letters). -/
def upperL (l : List Char) : List Char := l.map Char.toUpper

/-- Decimal digit string of a natural number, as printed by Python `str(int)`. -/
def natDigits (n : Nat) : List Char := Nat.toDigits 10 n

/-- Python format specifier `02d`: zero-pad to width two. -/
def pad2 (n : Nat) : List Char := if n < 10 then '0' :: natDigits n else natDigits n

/-- Numeric value of a digit string. -/
def digitsVal (ds : List Char) : Nat := ds.foldl (fun a c => 10 * a + (c.toNat - 48)) 0

/-- Python substring test `sub in s`: true when `sub` occurs contiguously in `l`. -/
def containsSub (sub : List Char) : List Char → Bool
  | [] => sub.isPrefixOf []
  | c :: rest => sub.isPrefixOf (c :: rest) || containsSub sub rest

/-- Python `int(str)` on a decimal literal: optional surrounding whitespace and
sign, then at least one digit (digit-group underscores are not modelled);
`none` models a raised `ValueError`. -/
def pyInt (l : List Char) : Option Int :=
  match stripL l with
  | '-' :: ds => if ds ≠ [] ∧ ds.all Char.isDigit then some (-(digitsVal ds : Int)) else none
  | '+' :: ds => if ds ≠ [] ∧ ds.all Char.isDigit then some ((digitsVal ds : Int)) else none
  | ds => if ds ≠ [] ∧ ds.all Char.isDigit then some ((digitsVal ds : Int)) else none

/-- Worker for `replaceAll`; the fuel argument only makes the recursion
structural and is always supplied with at least the input's length, so it
never runs out before the input does. -/
def replaceAllAux (sub repl : List Char) : Nat → List Char → List Char
  | 0, l => l
  | _ + 1, [] => []
  | fuel + 1, c :: rest =>
    if sub ≠ [] ∧ sub.isPrefixOf (c :: rest) then
      repl ++ replaceAllAux sub repl fuel (rest.drop (sub.length - 1))
    else
      c :: replaceAllAux sub repl fuel rest

/-- Python `str.replace`: replace every non-overlapping occurrence, left to right. -/
def replaceAll (sub repl l : List Char) : List Char :=
  replaceAllAux sub repl l.length l

/-- Display hour of `format_time_et` (src/scripts/fetch_schedule.py:189):
12 for hour 0, the hour itself before noon, 12 at noon, hour minus 12 after. -/
def displayHour12 (hour : Nat) : Nat :=
  if hour = 0 then 12
  else if hour < 12 then hour
  else if hour = 12 then 12
  else hour - 12

/-- AM/PM marker of `format_time_et`: AM strictly before hour 12, PM from noon on. -/
def period12 (hour : Nat) : List Char :=
  if hour < 12 then ['A', 'M'] else ['P', 'M']

/-- Embeds `format_time_et` (src/scripts/fetch_schedule.py:189): renders an
hour/minute pair as a 12-hour clock string, f-string `"{dh}:{m:02d} {period}"`. -/
def format_time_et (hour minute : Nat) : List Char :=
  natDigits (displayHour12 hour) ++ ':' :: pad2 minute ++ ' ' :: period12 hour

/-- Embeds `parse_time_for_sort` (src/scripts/fetch_schedule.py:595): converts a
display time string back to minutes for sorting; any parse failure yields 0. -/
def parse_time_for_sort (l : List Char) : Int :=
  let u := stripL (upperL l)
  let isPM := containsSub ['P', 'M'] u
  let t := stripL (replaceAll ['P', 'M'] [] (replaceAll ['A', 'M'] [] u))
  match t.splitOn ':' with
  | [] => 0
  | p0 :: rest =>
    match pyInt p0 with
    | none => 0
    | some hours =>
      match (match rest with | [] => some (0 : Int) | p1 :: _ => pyInt p1) with
      | none => 0
      | some minutes =>
        let h2 : Int :=
          if isPM = true ∧ hours ≠ 12 then hours + 12
          else if isPM = false ∧ hours = 12 then 0
          else hours
        h2 * 60 + minutes

/-- Tail of the `(\d{1,2})\s*(am|pm)` pattern of `parse_time_value_to_hour`:
optional spaces then a literal am (`false`) or pm (`true`) prefix. -/
def timeTail (rest : List Char) : Option Bool :=
  let r := rest.dropWhile isPySpace
  if ['a', 'm'].isPrefixOf r then some false
  else if ['p', 'm'].isPrefixOf r then some true
  else none

/-- Anchored match of `(\d{1,2})\s*(am|pm)` as `re.match` does: one or two
digits (greedily two, backtracking to one), optional spaces, then am or pm. -/
def timeMatch : List Char → Option (Nat × Bool)
  | [] => none
  | d1 :: rest1 =>
    if !d1.isDigit then none
    else
      match rest1 with
      | [] => none
      | d2 :: rest2 =>
        if d2.isDigit then
          match timeTail rest2 with
          | some p => some (10 * (d1.toNat - 48) + (d2.toNat - 48), p)
          | none => (timeTail rest1).map fun p => (d1.toNat - 48, p)
        else (timeTail rest1).map fun p => (d1.toNat - 48, p)

/-- Embeds `parse_time_value_to_hour` (src/scripts/fetch_schedule.py:207):
maps an ET-column marker to a 24-hour value, `none` when unrecognized. -/
def parse_time_value_to_hour (v : List Char) : Option Nat :=
  if v.isEmpty then none
  else
    let t := stripL (lowerL v)
    if containsSub "mid".toList t || t == "12am".toList then some 0
    else if containsSub "noon".toList t || t == "12pm".toList then some 12
    else
      match timeMatch t with
      | none => none
      | some (h, isPm) =>
        if isPm then some (if h = 12 then 12 else h + 12)
        else some (if h = 12 then 0 else h)

/-- Length of the maximal digit run at the head of the list. -/
def digitRunLen (l : List Char) : Nat := (l.takeWhile Char.isDigit).length

/-- Match of the date pattern digits{1,2} dash-or-slash digits{1,2}
dash-or-slash digits{2,4} anchored at the head of the list.  Because digits
and separators are disjoint, a digit group matches exactly when the maximal
digit run there has the allowed length, so no backtracking is needed. -/
def dateMatchAt (l : List Char) : Bool :=
  let r1 := digitRunLen l
  (r1 == 1 || r1 == 2) &&
    (match l.drop r1 with
     | c :: rest =>
       (c == '-' || c == '/') &&
         (let r2 := digitRunLen rest
          (r2 == 1 || r2 == 2) &&
            (match rest.drop r2 with
             | c2 :: rest2 => (c2 == '-' || c2 == '/') && 2 ≤ digitRunLen rest2
             | [] => false))
     | [] => false)

/-- Unanchored search for the date-like pattern (digits, separator, digits,
separator, digits), as the `re.search` calls used throughout the source. -/
def hasDateLike : List Char → Bool
  | [] => false
  | c :: rest => dateMatchAt (c :: rest) || hasDateLike rest

/-- Embeds the module constant CONTINUATION_WORDS (src/scripts/fetch_schedule.py:238). -/
def CONTINUATION_WORDS : List (List Char) :=
  ["from ", "with ", "starring ", "featuring ", "hosted by ", "and "].map String.toList

/-- Embeds the module constant HOUR_SHOWS (src/scripts/fetch_schedule.py:241). -/
def HOUR_SHOWS : List (List Char) :=
  ["lux radio", "screen director", "theatre guild", "screen guild"].map String.toList

/-- Embeds `get_block_for_row` (src/scripts/fetch_schedule.py:244): index of the
first time block whose row range contains the row, or -1 when none does. -/
def get_block_for_row (row : Nat) (time_blocks : List (Nat × Nat))
    (rows_per_block : Nat) : Int :=
  match time_blocks.enum.find? (fun p => decide (p.2.1 ≤ row ∧ row < p.2.1 + rows_per_block)) with
  | some p => (p.1 : Int)
  | none => -1

/-- Embeds `is_continuation` (src/scripts/fetch_schedule.py:254): whether a cell
text should be joined onto the previous cell's text. -/
def is_continuation (text prev_text : List Char) (row prev_row : Nat)
    (time_blocks : List (Nat × Nat)) (rows_per_block : Nat) : Bool :=
  if text.isEmpty || prev_text.isEmpty then false
  else if get_block_for_row row time_blocks rows_per_block ≠
      get_block_for_row prev_row time_blocks rows_per_block then false
  else
    let text_lower := stripL (lowerL text)
    let has_date := hasDateLike text
    if CONTINUATION_WORDS.any (fun w => w.isPrefixOf text_lower) then true
    else if (match text.head? with | some c => c.isLower | none => false) && !has_date then true
    else if !has_date
        && !(["the ", "a ", "an "].map String.toList).any (fun w => w.isPrefixOf text_lower)
        && !hasDateLike prev_text then true
    else false

/-- Embeds `estimate_show_duration` (src/scripts/fetch_schedule.py:291): an
ordered rule table resolving a show name to minutes. -/
def estimate_show_duration (show_name : List Char) : Nat :=
  let s := lowerL show_name
  if ("[theme]".toList).isPrefixOf s then 0
  else if containsSub "(1 hr)".toList s || containsSub "(60 min)".toList s
      || containsSub "(1 hour)".toList s then 60
  else if containsSub "(1/2 hr)".toList s || containsSub "(30 min)".toList s then 30
  else if containsSub "(15 min)".toList s then 15
  else if ("two from ".toList).isPrefixOf s || containsSub "two episodes".toList s then 60
  else if containsSub "two 1/2 hour".toList s then 60
  else if HOUR_SHOWS.any (fun h => containsSub h s) then 60
  else 30

/-- Embeds `is_theme_header` (src/scripts/fetch_schedule.py:327): bold, dateless,
and mentioning one of the theme keywords. -/
def is_theme_header (show_name : List Char) (is_bold : Bool) : Bool :=
  let has_date := hasDateLike show_name
  if is_bold && !has_date then
    let lower := lowerL show_name
    (["birthday", "marathon", "when radio was", "tribute",
      "anniversary", "salute", "celebration", "memorial"].map String.toList).any
      (fun kw => containsSub kw lower)
  else false

/-- Python `str.capitalize()`: first character uppercased, the rest lowercased. -/
def capitalizeL : List Char → List Char
  | [] => []
  | c :: rest => Char.toUpper c :: rest.map Char.toLower

/-- Abstract worksheet grid.  A cell value is embedded as its string form;
`none` stands for an empty or Python-falsy cell value.  `bold` embeds the
font-bold flag read from the formatting workbook. -/
structure Grid where
  maxCol : Nat
  val : Nat → Nat → Option (List Char)
  bold : Nat → Nat → Bool

/-- Day names scanned for by `find_header_row`, in its iteration order. -/
def day_names : List (List Char) :=
  ["monday", "tuesday", "wednesday", "thursday", "friday", "saturday", "sunday"].map
    String.toList

/-- Day columns found in one row: per column, the first day name occurring in
the cell's lowercased trimmed text, capitalized (inner loop of lines 350-360). -/
def dayColsOfRow (g : Grid) (row : Nat) : List (Nat × List Char) :=
  (List.range' 1 g.maxCol).filterMap fun col =>
    match g.val row col with
    | none => none
    | some v =>
      if v.isEmpty then none
      else
        (day_names.find? (fun d => containsSub d (stripL (lowerL v)))).map
          fun d => (col, capitalizeL d)

/-- Row scan of `find_header_row`: first row in the list whose day-column
count reaches five. -/
def findHeaderFrom (g : Grid) : List Nat → Option (Nat × List (Nat × List Char))
  | [] => none
  | r :: rs =>
    if 5 ≤ (dayColsOfRow g r).length then some (r, dayColsOfRow g r)
    else findHeaderFrom g rs

/-- Embeds `find_header_row` (src/scripts/fetch_schedule.py:342) with its
default scan limit of 20 rows. -/
def find_header_row (g : Grid) : Option (Nat × List (Nat × List Char)) :=
  findHeaderFrom g (List.range' 1 20)

/-- Embeds `find_et_column` (src/scripts/fetch_schedule.py:370): first header
cell whose normalized text is ET or contains EASTERN. -/
def find_et_column (g : Grid) (header_row : Nat) : Option Nat :=
  (List.range' 1 g.maxCol).findSome? fun col =>
    match g.val header_row col with
    | none => none
    | some v =>
      if v.isEmpty then none
      else
        let s := stripL (upperL v)
        if s == "ET".toList || containsSub "EASTERN".toList s then some col else none

/-- Loop body of `detect_time_blocks`: the anchor contributed by one ET-column
cell, `none` when the cell is empty or its text is not a time marker. -/
def detectCell (g : Grid) (et_column r : Nat) : Option (Nat × Nat) :=
  match g.val r et_column with
  | none => none
  | some v =>
    if v.isEmpty then none
    else (parse_time_value_to_hour v).map fun h => (r, h)

/-- Embeds `detect_time_blocks` (src/scripts/fetch_schedule.py:382) with its
default window of 100 rows below the start row. -/
def detect_time_blocks (g : Grid) (et_column start_row : Nat) : List (Nat × Nat) :=
  (List.range' start_row 100).filterMap (detectCell g et_column)

/-- A scheduled slot as emitted into the day lists (lines 553-557); the field
`showName` embeds the Python key `show`, which is a reserved word in Lean. -/
structure Slot where
  time : List Char
  showName : List Char
  episode : List Char
deriving DecidableEq

/-- One collected day-column cell before joining (lines 482-488). -/
structure RawCell where
  row : Nat
  val : List Char
  bold : Bool
  block_idx : Nat
  base_hour : Nat
deriving DecidableEq

/-- One joined show entry (lines 522-527); the field `showName` embeds the
Python key `show`. -/
structure Joined where
  showName : List Char
  block_idx : Nat
  base_hour : Nat
  start_row : Nat
deriving DecidableEq

/-- One day of the final structure (lines 585-590). -/
structure DayOut where
  day : List Char
  date : List Char
  slots : List Slot
deriving DecidableEq

/-- Placeholder cell texts skipped by the collector (line 481). -/
def placeholders : List (List Char) := ["none", "n/a", "-", ""].map String.toList

/-- Embeds the per-day cell collection loop (lines 464-488): all non-empty,
non-placeholder cells of one day column, walked block by block. -/
def collectDayCells (g : Grid) (time_blocks : List (Nat × Nat))
    (rows_per_block col : Nat) : List RawCell :=
  time_blocks.enum.flatMap fun bi =>
    (List.range rows_per_block).filterMap fun slot_idx =>
      let row_num := bi.2.1 + slot_idx
      match g.val row_num col with
      | none => none
      | some raw =>
        if raw.isEmpty then none
        else
          let v := stripL raw
          if v.isEmpty then none
          else if placeholders.contains (lowerL v) then none
          else some ⟨row_num, v, g.bold row_num col, bi.1, bi.2.2⟩

/-- One step of the joining scan (lines 494-529): `cur` is the group's first
cell, `curAbsRev` the absorbed continuation cells so far in reverse, `prev`
the most recently absorbed cell (initially `cur` itself). -/
def joinStep (tb : List (Nat × Nat)) (rpb : Nat) (cur : RawCell)
    (curAbsRev : List RawCell) (prev : RawCell) :
    List RawCell → List (RawCell × List RawCell)
  | [] => [(cur, curAbsRev.reverse)]
  | c :: rest =>
    if is_continuation c.val prev.val c.row prev.row tb rpb then
      joinStep tb rpb cur (c :: curAbsRev) c rest
    else
      (cur, curAbsRev.reverse) :: joinStep tb rpb c [] c rest

/-- Embeds the continuation-joining loop (lines 490-529), returning each
entry's first cell together with the cells absorbed into it. -/
def joinGroups (tb : List (Nat × Nat)) (rpb : Nat) :
    List RawCell → List (RawCell × List RawCell)
  | [] => []
  | c :: rest => joinStep tb rpb c [] c rest

/-- Builds the joined show entry of one group (lines 515-527): texts joined
with single spaces, theme marker prefixed when the first cell was bold and
the joined name classifies as a theme header. -/
def mkShow (grp : RawCell × List RawCell) : Joined :=
  let name := List.intercalate [' '] (grp.1.val :: grp.2.map (·.val))
  let name2 := if is_theme_header name grp.1.bold then "[THEME] ".toList ++ name else name
  ⟨name2, grp.1.block_idx, grp.1.base_hour, grp.1.row⟩

/-- One insertion into the insertion-ordered block dictionary (lines 533-538). -/
def insertShow (acc : List (Nat × List Joined)) (s : Joined) : List (Nat × List Joined) :=
  if acc.any (fun p => p.1 == s.block_idx) then
    acc.map fun p => if p.1 = s.block_idx then (p.1, p.2 ++ [s]) else p
  else acc ++ [(s.block_idx, [s])]

/-- Groups joined shows by block index, preserving first-appearance order,
as the Python dict built in lines 533-538. -/
def groupByBlock (shows : List Joined) : List (Nat × List Joined) :=
  shows.foldl insertShow []

/-- Time-allocation walk of one block (lines 548-561): each entry is stamped
with the current cursor, then the cursor advances by its estimated duration. -/
def allocFrom (cur : Nat) : List Joined → List Slot
  | [] => []
  | s :: rest =>
    { time := format_time_et ((cur / 60) % 24) (cur % 60), showName := s.showName,
      episode := [] } :: allocFrom (cur + estimate_show_duration s.showName) rest

/-- Embeds the per-block allocation (lines 541-561): the cursor starts at the
first entry's base hour times 60; an empty block yields nothing. -/
def allocGroup (shows : List Joined) : List Slot :=
  match shows with
  | [] => []
  | s0 :: _ => allocFrom (s0.base_hour * 60) shows

/-- Full processing of one day column (steps 6-8 of `parse_excel_schedule`):
collect cells, join continuations, classify themes, group by block, allocate. -/
def processColumn (g : Grid) (tb : List (Nat × Nat)) (rpb col : Nat) : List Slot :=
  let shows := (joinGroups tb rpb (collectDayCells g tb rpb col)).map mkShow
  (groupByBlock shows).flatMap fun p => allocGroup p.2

/-- Sort key of the emitted slots, `parse_time_for_sort` of the time string. -/
def slotLe (a b : Slot) : Prop :=
  parse_time_for_sort a.time ≤ parse_time_for_sort b.time

instance : DecidableRel slotLe := fun _ _ => Int.decLe _ _

instance : IsTotal Slot slotLe := ⟨fun _ _ => Int.le_total _ _⟩

instance : IsTrans Slot slotLe := ⟨fun _ _ _ => Int.le_trans⟩

/-- Embeds line 588's `sorted(..., key=parse_time_for_sort)`.  Python's sorted
is a stable sort by the key; a stable sort's output is uniquely determined by
the key order and the input order, and `List.insertionSort` is stable, so it
computes the same list. -/
def sortSlots (l : List Slot) : List Slot := List.insertionSort slotLe l

/-- Time anchors actually available to `parse_excel_schedule` (lines 437-443):
empty when the ET column was not located. -/
def effAnchors (g : Grid) (header_row : Nat) : List (Nat × Nat) :=
  match find_et_column g header_row with
  | some c => detect_time_blocks g c (header_row + 1)
  | none => []

/-- Embeds the block-layout choice (lines 446-457): with at least two anchors,
rows per block is the gap between the first two; otherwise a synthetic layout
of 12 two-hour blocks of 5 rows from the data start row is substituted. -/
def layoutOf (anchors : List (Nat × Nat)) (data_start_row : Nat) :
    Nat × List (Nat × Nat) :=
  match anchors with
  | a0 :: a1 :: _ => (a1.1 - a0.1, anchors)
  | _ => (5, (List.range 12).map fun i => (data_start_row + i * 5, i * 2))

/-- Fixed Sunday-first output order of lines 582-583. -/
def weekDays : List (List Char) :=
  ["Sunday", "Monday", "Tuesday", "Wednesday", "Thursday", "Friday", "Saturday"].map
    String.toList

/-- Embeds the parsing core of `parse_excel_schedule` (src/scripts/fetch_schedule.py:400),
from header detection to the assembled per-day schedule list.  The week-date
fields and wall-clock timestamp of the surrounding dict are outside the
deterministic core and are not part of this value; the error case embeds the
`ValueError` raised on a missing header row. -/
def parse_excel_schedule (g : Grid) : Except (List Char) (List DayOut) :=
  match find_header_row g with
  | none => .error "Could not find header row with day names (MONDAY, TUESDAY, etc.)".toList
  | some (header_row, day_columns) =>
    let layout := layoutOf (effAnchors g header_row) (header_row + 1)
    let rpb := layout.1
    let tb := layout.2
    .ok <| weekDays.filterMap fun day =>
      if (day_columns.map (·.2)).contains day then
        some { day := day, date := [],
               slots := sortSlots ((day_columns.filter (fun p => p.2 == day)).flatMap
                 fun p => processColumn g tb rpb p.1) }
      else none

/-- Take exactly `k` digit characters from the head, returning their value
and the remainder. -/
def takeDigits (l : List Char) (k : Nat) : Option (Nat × List Char) :=
  let d := l.take k
  if d.length = k ∧ d.all Char.isDigit then some (digitsVal d, l.drop k) else none

/-- Alternatives for the day group digits{1,2} in regex preference order:
greedily two digits, then one. -/
def dayAlts (l : List Char) : List (Nat × List Char) :=
  (match takeDigits l 2 with | some p => [p] | none => [])
    ++ (match takeDigits l 1 with | some p => [p] | none => [])

/-- Alternatives after the optional ordinal suffix st, nd, rd or th, in greedy
preference order: with the suffix consumed first, then without.  The source
pattern is compiled with re.IGNORECASE, so the suffix letters match in any
case. -/
def ordAlts (l : List Char) : List (List Char) :=
  let l2 := (l.take 2).map Char.toLower
  if l2 == "st".toList || l2 == "nd".toList || l2 == "rd".toList || l2 == "th".toList
  then [l.drop 2, l] else [l]

/-- Alternatives after the optional comma, in greedy preference order. -/
def commaAlts (l : List Char) : List (List Char) :=
  match l with
  | ',' :: rest => [rest, l]
  | _ => [l]

/-- Anchored match of the long-form date pattern of `extract_date_range`
(line 644): month word, spaces, day with optional ordinal suffix, a dash or
en dash with optional surrounding spaces, a second month word and day, an
optional comma, then a four-digit year.  Letter runs, space runs and digit
runs are disjoint from what follows them, so only the two day groups and the
optional suffix and comma need the alternative lists; the match returns the
captured groups (month1, day1, month2, day2, year). -/
def matchAt (l : List Char) : Option (List Char × Nat × List Char × Nat × Nat) :=
  let m1 := l.takeWhile Char.isAlpha
  if m1.isEmpty then none
  else
    let r1 := l.dropWhile Char.isAlpha
    let sp1 := r1.dropWhile isPySpace
    if sp1.length = r1.length then none
    else
      (dayAlts sp1).findSome? fun d1p =>
        (ordAlts d1p.2).findSome? fun r3 =>
          match r3.dropWhile isPySpace with
          | c :: r5 =>
            if c = '-' ∨ c = '–' then
              let r6 := r5.dropWhile isPySpace
              let m2 := r6.takeWhile Char.isAlpha
              if m2.isEmpty then none
              else
                let r7 := r6.dropWhile Char.isAlpha
                let sp2 := r7.dropWhile isPySpace
                if sp2.length = r7.length then none
                else
                  (dayAlts sp2).findSome? fun d2p =>
                    (ordAlts d2p.2).findSome? fun r9 =>
                      (commaAlts r9).findSome? fun r10 =>
                        match takeDigits (r10.dropWhile isPySpace) 4 with
                        | some (y, _) => some (m1, d1p.1, m2, d2p.1, y)
                        | none => none
            else none
          | [] => none

/-- Unanchored `re.search` over the text for the long-form date pattern:
first start position at which `matchAt` succeeds. -/
def textDateSearch : List Char → Option (List Char × Nat × List Char × Nat × Nat)
  | [] => none
  | c :: rest => matchAt (c :: rest) <|> textDateSearch rest

/-- Embeds the MONTHS table of `extract_date_range` (lines 628-641). -/
def monthsLookup (m : List Char) : Option Nat :=
  ((["jan", "january"].map fun s => (s, 1))
    ++ (["feb", "february"].map fun s => (s, 2))
    ++ (["mar", "march"].map fun s => (s, 3))
    ++ (["apr", "april"].map fun s => (s, 4))
    ++ [("may", 5)]
    ++ (["jun", "june"].map fun s => (s, 6))
    ++ (["jul", "july"].map fun s => (s, 7))
    ++ (["aug", "august"].map fun s => (s, 8))
    ++ (["sep", "sept", "september"].map fun s => (s, 9))
    ++ (["oct", "october"].map fun s => (s, 10))
    ++ (["nov", "november"].map fun s => (s, 11))
    ++ (["dec", "december"].map fun s => (s, 12))).findSome?
      fun (p : String × Nat) => if p.1.toList == m then some p.2 else none

/-- Renders a date as the f-string of lines 670-671: year, zero-padded month,
zero-padded day, dash-separated. -/
def fmtDate (year month day : Nat) : List Char :=
  natDigits year ++ '-' :: pad2 month ++ '-' :: pad2 day

/-- Embeds the long-form branch of `extract_date_range` applied to one cell's
text (lines 658-674): on a pattern match, unknown month words silently default
to month 1 through the `MONTHS.get(_, 1)` lookups. -/
def extractTextDateFromCell (s : List Char) : Option (List Char × List Char) :=
  match textDateSearch s with
  | some (m1, d1, m2, d2, y) =>
    some (fmtDate y ((monthsLookup (lowerL m1)).getD 1) d1,
          fmtDate y ((monthsLookup (lowerL m2)).getD 1) d2)
  | none => none

/-! Concrete fixtures used by counterexamples and witnesses. -/

/-- Day name placed in column `c` of the five-day fixture grid. -/
def fiveDayName : Nat → List Char := fun c =>
  if c = 1 then "monday".toList else if c = 2 then "tuesday".toList
  else if c = 3 then "wednesday".toList else if c = 4 then "thursday".toList
  else "friday".toList

/-- A grid whose header row names only Monday through Friday: five day
columns, enough to qualify as a header, but fewer than seven days. -/
def fiveDayGrid : Grid where
  maxCol := 5
  val := fun r c => if r = 1 ∧ 1 ≤ c ∧ c ≤ 5 then some (fiveDayName c) else none
  bold := fun _ _ => false

/-- Day name placed in column `c` of the seven-day fixture grid. -/
def sevenDayName : Nat → List Char := fun c =>
  if c = 1 then "sunday".toList else if c = 2 then "monday".toList
  else if c = 3 then "tuesday".toList else if c = 4 then "wednesday".toList
  else if c = 5 then "thursday".toList else if c = 6 then "friday".toList
  else "saturday".toList

/-- A grid whose header row names all seven days, Sunday through Saturday. -/
def sevenDayGrid : Grid where
  maxCol := 7
  val := fun r c => if r = 1 ∧ 1 ≤ c ∧ c ≤ 7 then some (sevenDayName c) else none
  bold := fun _ _ => false

/-- A grid with no content at all, hence no header row. -/
def emptyGrid : Grid where
  maxCol := 1
  val := fun _ _ => none
  bold := fun _ _ => false

/-- A one-column grid whose row 2 holds the out-of-range time marker 13pm. -/
def hour13Grid : Grid where
  maxCol := 1
  val := fun r c => if r = 2 ∧ c = 1 then some "13pm".toList else none
  bold := fun _ _ => false

/-- The single time block of the continuation-joining scenario. -/
def shadowBlocks : List (Nat × Nat) := [(2, 8)]

/-- Ordered day-column cells of the continuation-joining scenario. -/
def shadowCells : List RawCell :=
  [⟨2, "The Shadow".toList, false, 0, 8⟩,
   ⟨3, "starring Orson Welles".toList, false, 0, 8⟩,
   ⟨4, "12-25-1945".toList, false, 0, 8⟩]

/-- Joined groups of the theme-header scenario: a bold dateless theme cell
followed by two ordinary shows, all in block 0 at base hour 8. -/
def themeGroups : List (RawCell × List RawCell) :=
  [(⟨2, "Birthday Salute".toList, true, 0, 8⟩, []),
   (⟨3, "Dragnet".toList, false, 0, 8⟩, []),
   (⟨4, "Sam Spade".toList, false, 0, 8⟩, [])]

/-- Cell contents of the full end-to-end fixture grid: an ET column with two
time markers and a Sunday column with three shows across the two blocks. -/
def fullGridVal (r c : Nat) : Option (List Char) :=
  if r = 1 then
    if c = 1 then some "ET".toList
    else if c = 2 then some "sunday".toList
    else if c = 3 then some "monday".toList
    else if c = 4 then some "tuesday".toList
    else if c = 5 then some "wednesday".toList
    else if c = 6 then some "thursday".toList
    else if c = 7 then some "friday".toList
    else if c = 8 then some "saturday".toList
    else none
  else if c = 1 then
    if r = 2 then some "12mid".toList
    else if r = 4 then some "2am".toList
    else none
  else if c = 2 then
    if r = 2 then some "Dragnet".toList
    else if r = 3 then some "12-25-1945".toList
    else if r = 4 then some "Suspense".toList
    else none
  else none

/-- A grid exercising the whole pipeline: header with all seven days, an ET
column with anchors at rows 2 and 4, and a populated Sunday column. -/
def fullGrid : Grid where
  maxCol := 8
  val := fullGridVal
  bold := fun _ _ => false

/-- The seven-day schedule list the full fixture parses to. -/
def fullGridOut : List DayOut :=
  [⟨"Sunday".toList, [],
    [⟨"12:00 AM".toList, "Dragnet".toList, []⟩,
     ⟨"12:30 AM".toList, "12-25-1945".toList, []⟩,
     ⟨"2:00 AM".toList, "Suspense".toList, []⟩]⟩,
   ⟨"Monday".toList, [], []⟩, ⟨"Tuesday".toList, [], []⟩,
   ⟨"Wednesday".toList, [], []⟩, ⟨"Thursday".toList, [], []⟩,
   ⟨"Friday".toList, [], []⟩, ⟨"Saturday".toList, [], []⟩]

/-! Theorems. -/

/-- Every anchor produced by one ET-column cell carries that cell's row. -/
theorem detectCell_fst (g : Grid) (et_column r : Nat) (p : Nat × Nat)
    (hp : p ∈ detectCell g et_column r) : p.1 = r := by
  unfold detectCell at hp
  rcases hgv : g.val r et_column with _ | v <;> rw [hgv] at hp
  · simp at hp
  · by_cases he : v.isEmpty <;> simp [he] at hp
    obtain ⟨h, _, rfl⟩ := hp
    rfl

/-- C2 (amended): each display time is the cursor rendered in 12-hour form
with AM or PM, with no leading zero on the display hour, and with the minute
always rendered as exactly two digits; in particular a cursor at exactly 8:00
renders with an explicit ":00", never suppressed. -/
theorem C2_amended_format (hour minute : Nat) (hh : hour < 24) (_hm : minute < 60) :
    format_time_et hour minute
      = natDigits (displayHour12 hour) ++ ':' :: pad2 minute ++ ' ' :: period12 hour ∧
    (natDigits (displayHour12 hour)).head? ≠ some '0' ∧
    1 ≤ displayHour12 hour ∧ displayHour12 hour ≤ 12 ∧
    (period12 hour = ['A', 'M'] ∨ period12 hour = ['P', 'M']) ∧
    (minute = 0 → pad2 minute = ['0', '0']) := by
  refine ⟨rfl, ?_, ?_, ?_, ?_, fun h => by subst h; decide⟩
  · interval_cases hour <;> decide
  · interval_cases hour <;> decide
  · interval_cases hour <;> decide
  · unfold period12; split
    · exact Or.inl rfl
    · exact Or.inr rfl

/-- C2 (counterexample): the claim says a cursor at exactly 8:00 renders
without ":00"; the code renders it as "8:00 AM", with the ":00" present. -/
theorem C2_counterexample_colon00 :
    format_time_et 8 0 = "8:00 AM".toList ∧
    containsSub ":00".toList (format_time_et 8 0) = true ∧
    format_time_et 8 0 ≠ "8 AM".toList := by decide

/-- C2 (witness for the amended theorem) at hour 8, minute 0. -/
theorem C2_witness :
    format_time_et 8 0
      = natDigits (displayHour12 8) ++ ':' :: pad2 0 ++ ' ' :: period12 8 ∧
    (natDigits (displayHour12 8)).head? ≠ some '0' ∧
    1 ≤ displayHour12 8 ∧ displayHour12 8 ≤ 12 ∧
    (period12 8 = ['A', 'M'] ∨ period12 8 = ['P', 'M']) ∧
    (0 = 0 → pad2 0 = ['0', '0']) :=
  C2_amended_format 8 0 (by decide) (by decide)

/-- C3 (amended): the anchors produced by the time-block detector appear in
strictly increasing row order, for every grid, column and starting row; the
claimed hour bound 0..23 does not hold in general and is dropped. -/
theorem C3_amended_rows_strict_mono (g : Grid) (et_column start_row : Nat) :
    ((detect_time_blocks g et_column start_row).map Prod.fst).Pairwise (· < ·) := by
  unfold detect_time_blocks
  rw [List.pairwise_map]
  refine List.Pairwise.filterMap _ ?_ (List.pairwise_lt_range' _ _)
  intro a a' hlt b hb b' hb'
  rw [detectCell_fst g et_column a b hb, detectCell_fst g et_column a' b' hb']
  exact hlt

/-- C3 (counterexample): the time marker "13pm" parses to hour 25, so a grid
holding it in the ET column yields an anchor whose hour exceeds 23. -/
theorem C3_counterexample_hour25 :
    parse_time_value_to_hour "13pm".toList = some 25 ∧
    detect_time_blocks hour13Grid 1 2 = [(2, 25)] ∧
    ¬(25 ≤ 23) := by decide

/-- C6: theme-classified entries get duration 0 and do not advance the time
cursor: the block of entries "Birthday Salute" (bold, dateless), "Dragnet" and
"Sam Spade" at base hour 8 yields the times 8:00 AM, 8:00 AM and 8:30 AM. -/
theorem C6_theme_zero_duration :
    estimate_show_duration (mkShow (⟨2, "Birthday Salute".toList, true, 0, 8⟩, [])).showName = 0 ∧
    ((groupByBlock (themeGroups.map mkShow)).flatMap fun p => allocGroup p.2).map (·.time)
      = ["8:00 AM".toList, "8:00 AM".toList, "8:30 AM".toList] := by decide

/-- C8: of the ordered cells "The Shadow", "starring Orson Welles" and
"12-25-1945" in one block, the joiner absorbs the second (connector prefix)
but not the third (date-like pattern), giving exactly two show entries. -/
theorem C8_shadow_join :
    (joinGroups shadowBlocks 5 shadowCells).map (fun grp => (mkShow grp).showName)
      = ["The Shadow starring Orson Welles".toList, "12-25-1945".toList] := by decide

/-- C9: whenever the ET column was not located, or fewer than two anchors were
detected in it, the parser substitutes the synthetic layout of 12 blocks of 5
rows from the data start row with base hours 0, 2, ..., 22, and, the header
having been found, still returns a schedule instead of failing. -/
theorem C9_default_layout (g : Grid) (header_row : Nat)
    (day_columns : List (Nat × List Char))
    (hf : find_header_row g = some (header_row, day_columns))
    (h : find_et_column g header_row = none ∨ (effAnchors g header_row).length < 2) :
    layoutOf (effAnchors g header_row) (header_row + 1)
      = (5, (List.range 12).map fun i => (header_row + 1 + i * 5, i * 2)) ∧
    ∃ out, parse_excel_schedule g = .ok out := by
  constructor
  · rcases h with h | h
    · unfold effAnchors
      rw [h]
      rfl
    · rcases heff : effAnchors g header_row with _ | ⟨a0, _ | ⟨a1, t⟩⟩
      · rfl
      · rfl
      · rw [heff] at h
        simp only [List.length_cons] at h
        omega
  · unfold parse_excel_schedule
    rw [hf]
    exact ⟨_, rfl⟩

/-- C9 (witness): the five-day fixture grid has no ET column, so its layout is
the synthetic default and its parse still succeeds. -/
theorem C9_witness :
    layoutOf (effAnchors fiveDayGrid 1) 2
      = (5, (List.range 12).map fun i => (1 + 1 + i * 5, i * 2)) ∧
    ∃ out, parse_excel_schedule fiveDayGrid = .ok out :=
  C9_default_layout fiveDayGrid 1 (dayColsOfRow fiveDayGrid 1) (by decide)
    (Or.inl (by decide))

/-- C10: a cell whose text matches the long-form date pattern with month words
missing from the month table does not fail or fall back: the extractor returns
a date pair whose unknown months default to 1, rendered as "01". -/
theorem C10_unknown_month_defaults (s m1 m2 : List Char) (d1 d2 y : Nat)
    (hs : textDateSearch s = some (m1, d1, m2, d2, y))
    (h1 : monthsLookup (lowerL m1) = none)
    (h2 : monthsLookup (lowerL m2) = none) :
    extractTextDateFromCell s = some (fmtDate y 1 d1, fmtDate y 1 d2) ∧
    fmtDate y 1 d1 = natDigits y ++ '-' :: pad2 1 ++ '-' :: pad2 d1 ∧
    pad2 1 = ['0', '1'] := by
  refine ⟨?_, rfl, by decide⟩
  unfold extractTextDateFromCell
  rw [hs]
  show some (fmtDate y ((monthsLookup (lowerL m1)).getD 1) d1,
        fmtDate y ((monthsLookup (lowerL m2)).getD 1) d2)
      = some (fmtDate y 1 d1, fmtDate y 1 d2)
  rw [h1, h2]
  rfl

/-- C10 (witness): the unrecognized month word "Foobar" silently becomes
month 01 in both returned dates. -/
theorem C10_witness :
    extractTextDateFromCell "Foobar 19 - Foobar 25, 2026".toList
      = some (fmtDate 2026 1 19, fmtDate 2026 1 25) ∧
    fmtDate 2026 1 19 = natDigits 2026 ++ '-' :: pad2 1 ++ '-' :: pad2 19 ∧
    pad2 1 = ['0', '1'] :=
  C10_unknown_month_defaults "Foobar 19 - Foobar 25, 2026".toList
    "Foobar".toList "Foobar".toList 19 25 2026 (by decide) (by decide) (by decide)

/-- A cell judged a continuation lies in the same detected block as the cell
it continues: `is_continuation` refuses to join across block boundaries
before consulting any textual rule. -/
theorem is_continuation_block_eq (text prev_text : List Char) (row prev_row : Nat)
    (tb : List (Nat × Nat)) (rpb : Nat)
    (h : is_continuation text prev_text row prev_row tb rpb = true) :
    get_block_for_row row tb rpb = get_block_for_row prev_row tb rpb := by
  unfold is_continuation at h
  by_cases h1 : (text.isEmpty || prev_text.isEmpty) = true
  · rw [if_pos h1] at h
    cases h
  · rw [if_neg h1] at h
    by_cases h2 : get_block_for_row row tb rpb ≠ get_block_for_row prev_row tb rpb
    · rw [if_pos h2] at h
      cases h
    · exact not_not.mp h2

/-- Invariant of the joining scan: as long as every absorbed cell and the most
recently absorbed cell share the first cell's block, every emitted group's
absorbed cells share that group's first cell's block. -/
theorem joinStep_block_eq (tb : List (Nat × Nat)) (rpb : Nat) :
    ∀ (l : List RawCell) (cur : RawCell) (curAbsRev : List RawCell) (prev : RawCell),
      (∀ c ∈ curAbsRev, get_block_for_row c.row tb rpb = get_block_for_row cur.row tb rpb) →
      get_block_for_row prev.row tb rpb = get_block_for_row cur.row tb rpb →
      ∀ grp ∈ joinStep tb rpb cur curAbsRev prev l, ∀ c ∈ grp.2,
        get_block_for_row c.row tb rpb = get_block_for_row grp.1.row tb rpb := by
  intro l
  induction l with
  | nil =>
    intro cur curAbsRev prev hinv _ grp hgrp c hc
    rw [joinStep] at hgrp
    have hg : grp = (cur, curAbsRev.reverse) := by simpa using hgrp
    subst hg
    exact hinv c (List.mem_reverse.mp hc)
  | cons a rest ih =>
    intro cur curAbsRev prev hinv hprev grp hgrp c hc
    rw [joinStep] at hgrp
    by_cases hcont : is_continuation a.val prev.val a.row prev.row tb rpb = true
    · rw [if_pos hcont] at hgrp
      refine ih cur (a :: curAbsRev) a ?_ ?_ grp hgrp c hc
      · intro c' hc'
        rcases List.mem_cons.mp hc' with rfl | hmem
        · exact (is_continuation_block_eq _ _ _ _ _ _ hcont).trans hprev
        · exact hinv c' hmem
      · exact (is_continuation_block_eq _ _ _ _ _ _ hcont).trans hprev
    · rw [if_neg hcont] at hgrp
      rcases List.mem_cons.mp hgrp with rfl | hmem
      · exact hinv c (List.mem_reverse.mp hc)
      · exact ih a [] a (by simp) rfl grp hmem c hc

/-- C5: the joiner never merges two cells lying in different time blocks into
one show entry: every cell absorbed into a joined group lies in the same
detected block as the group's first cell, for every block layout, spacing and
cell list, regardless of the cells' texts. -/
theorem C5_join_within_block (tb : List (Nat × Nat)) (rpb : Nat)
    (cells : List RawCell) (grp : RawCell × List RawCell)
    (hgrp : grp ∈ joinGroups tb rpb cells) (c : RawCell) (hc : c ∈ grp.2) :
    get_block_for_row c.row tb rpb = get_block_for_row grp.1.row tb rpb := by
  cases cells with
  | nil => cases hgrp
  | cons c0 rest =>
    exact joinStep_block_eq tb rpb rest c0 [] c0 (by simp) rfl grp hgrp c hc

/-- C5 (witness): in the continuation scenario, the absorbed cell at row 3
shares the block of its group's first cell at row 2. -/
theorem C5_witness :
    get_block_for_row 3 shadowBlocks 5 = get_block_for_row 2 shadowBlocks 5 :=
  C5_join_within_block shadowBlocks 5 shadowCells
    (⟨2, "The Shadow".toList, false, 0, 8⟩,
     [⟨3, "starring Orson Welles".toList, false, 0, 8⟩])
    (by decide) ⟨3, "starring Orson Welles".toList, false, 0, 8⟩ (by decide)

/-- A successful header scan returns a scanned row, its day columns, a
qualifying count, and no earlier scanned row qualifies. -/
theorem findHeaderFrom_some (g : Grid) :
    ∀ (l : List Nat), l.Pairwise (· < ·) →
      ∀ r cols, findHeaderFrom g l = some (r, cols) →
        r ∈ l ∧ cols = dayColsOfRow g r ∧ 5 ≤ (dayColsOfRow g r).length ∧
        ∀ r' ∈ l, r' < r → (dayColsOfRow g r').length < 5 := by
  intro l
  induction l with
  | nil =>
    intro _ r cols h
    cases h
  | cons a as ih =>
    intro hpw r cols h
    rw [findHeaderFrom] at h
    by_cases ha : 5 ≤ (dayColsOfRow g a).length
    · rw [if_pos ha] at h
      simp only [Option.some.injEq, Prod.mk.injEq] at h
      obtain ⟨rfl, rfl⟩ := h
      refine ⟨List.mem_cons_self a as, rfl, ha, ?_⟩
      intro r' hr' hlt
      rcases List.mem_cons.mp hr' with rfl | hmem
      · exact absurd hlt (lt_irrefl _)
      · have := (List.pairwise_cons.mp hpw).1 r' hmem
        omega
    · rw [if_neg ha] at h
      obtain ⟨hmem, hcols, hq, hrest⟩ := ih (List.pairwise_cons.mp hpw).2 r cols h
      refine ⟨List.mem_cons_of_mem a hmem, hcols, hq, ?_⟩
      intro r' hr' hlt
      rcases List.mem_cons.mp hr' with rfl | hmem'
      · omega
      · exact hrest r' hmem' hlt

/-- A failed header scan means no scanned row reaches five day columns. -/
theorem findHeaderFrom_none (g : Grid) :
    ∀ (l : List Nat), findHeaderFrom g l = none →
      ∀ r ∈ l, (dayColsOfRow g r).length < 5 := by
  intro l
  induction l with
  | nil =>
    intro _ r hr
    cases hr
  | cons a as ih =>
    intro h r hr
    rw [findHeaderFrom] at h
    by_cases ha : 5 ≤ (dayColsOfRow g a).length
    · rw [if_pos ha] at h
      cases h
    · rw [if_neg ha] at h
      rcases List.mem_cons.mp hr with rfl | hmem
      · omega
      · exact ih h r hmem

/-- C4: the header locator scans rows 1..20 top to bottom, qualifies a row
exactly when it yields at least five day-column matches, returns the first
qualifying row with its mapping, and the parse fails with the header-not-found
error exactly when no row in the first 20 qualifies — never producing a
schedule without a header. -/
theorem C4_header_locator (g : Grid) :
    (∀ r cols, find_header_row g = some (r, cols) →
      (1 ≤ r ∧ r ≤ 20) ∧ cols = dayColsOfRow g r ∧ 5 ≤ (dayColsOfRow g r).length ∧
      ∀ r', 1 ≤ r' → r' < r → (dayColsOfRow g r').length < 5) ∧
    (find_header_row g = none → ∀ r, 1 ≤ r → r ≤ 20 → (dayColsOfRow g r).length < 5) ∧
    (find_header_row g = none ↔ ∃ msg, parse_excel_schedule g = .error msg) := by
  refine ⟨?_, ?_, ?_⟩
  · intro r cols h
    unfold find_header_row at h
    obtain ⟨hmem, hcols, hq, hprev⟩ :=
      findHeaderFrom_some g (List.range' 1 20) (List.pairwise_lt_range' 1 20) r cols h
    have hr := List.mem_range'_1.mp hmem
    refine ⟨⟨hr.1, by omega⟩, hcols, hq, ?_⟩
    intro r' h1 hlt
    exact hprev r' (List.mem_range'_1.mpr ⟨h1, by omega⟩) hlt
  · intro h r h1 h2
    unfold find_header_row at h
    exact findHeaderFrom_none g (List.range' 1 20) h r (List.mem_range'_1.mpr ⟨h1, by omega⟩)
  · constructor
    · intro h
      unfold parse_excel_schedule
      rw [h]
      exact ⟨_, rfl⟩
    · rintro ⟨msg, hmsg⟩
      rcases hfh : find_header_row g with _ | p
      · rfl
      · obtain ⟨hr, cols⟩ := p
        unfold parse_excel_schedule at hmsg
        rw [hfh] at hmsg
        cases hmsg

/-- C4 (witness): the empty grid has no header row and the parse fails on it. -/
theorem C4_witness : ∃ msg, parse_excel_schedule emptyGrid = .error msg :=
  (C4_header_locator emptyGrid).2.2.mp (by decide)

/-- Day names of the emitted schedule: filtering the fixed week-day order by
the membership test used to build it. -/
theorem map_day_filterMap (l : List (List Char)) (p : List Char → Bool)
    (f : List Char → List Slot) :
    ((l.filterMap fun d => if p d then some (⟨d, [], f d⟩ : DayOut) else none).map
      (·.day)) = l.filter p := by
  induction l with
  | nil => rfl
  | cons a as ih =>
    by_cases hp : p a <;> simp [List.filterMap_cons, List.filter_cons, hp, ih]

/-- C1 (amended): when a header row is found the parse succeeds and emits one
DaySchedule per distinct detected day name, in the fixed Sunday-first order —
the seven-day list filtered to the detected names, hence at most seven
entries, and exactly the seven fixed days precisely when every day name was
detected.  The original claim of exactly seven entries for every parsed grid
fails when the header yields fewer than seven distinct days. -/
theorem C1_amended_schedule_days (g : Grid) (header_row : Nat)
    (day_columns : List (Nat × List Char))
    (hf : find_header_row g = some (header_row, day_columns)) :
    ∃ out, parse_excel_schedule g = .ok out ∧
      out.map (·.day) = weekDays.filter (fun d => (day_columns.map (·.2)).contains d) ∧
      out.length ≤ 7 ∧
      ((∀ d ∈ weekDays, (day_columns.map (·.2)).contains d = true) →
        out.map (·.day) = weekDays) := by
  have hmap := map_day_filterMap weekDays
    (fun d => (day_columns.map (·.2)).contains d)
    (fun d => sortSlots ((day_columns.filter (fun q => q.2 == d)).flatMap
      fun q => processColumn g (layoutOf (effAnchors g header_row) (header_row + 1)).2
        (layoutOf (effAnchors g header_row) (header_row + 1)).1 q.1))
  unfold parse_excel_schedule
  rw [hf]
  refine ⟨_, rfl, hmap, ?_, ?_⟩
  · have h1 := congrArg List.length hmap
    rw [List.length_map] at h1
    have h2 := List.length_filter_le
      (fun d => (day_columns.map (·.2)).contains d) weekDays
    have h3 : weekDays.length = 7 := rfl
    omega
  · intro hall
    rw [hmap]
    exact List.filter_eq_self.mpr hall

/-- C1 (counterexample): the five-day fixture grid parses successfully to a
schedule of five DaySchedule entries, not seven. -/
theorem C1_counterexample_five_days :
    (parse_excel_schedule fiveDayGrid).toOption.map List.length = some 5 ∧
    (5 : Nat) ≠ 7 := by decide

/-- C1 (witness for the amended theorem) on the seven-day fixture grid. -/
theorem C1_witness :
    ∃ out, parse_excel_schedule sevenDayGrid = .ok out ∧
      out.map (·.day)
        = weekDays.filter
            (fun d => ((dayColsOfRow sevenDayGrid 1).map (·.2)).contains d) ∧
      out.length ≤ 7 ∧
      ((∀ d ∈ weekDays, ((dayColsOfRow sevenDayGrid 1).map (·.2)).contains d = true) →
        out.map (·.day) = weekDays) :=
  C1_amended_schedule_days sevenDayGrid 1 (dayColsOfRow sevenDayGrid 1) (by decide)

set_option maxHeartbeats 2000000 in
/-- C7: formatting an hour/minute pair and re-parsing the resulting string
returns the original minute-of-day, and every day of every successfully
parsed schedule has its slot list sorted non-decreasing by the re-parsed
minute-of-day. -/
theorem C7_roundtrip_and_sorted :
    (∀ hour, hour < 24 → ∀ minute, minute < 60 →
      parse_time_for_sort (format_time_et hour minute) = (60 * hour + minute : Int)) ∧
    ∀ (g : Grid) (out : List DayOut), parse_excel_schedule g = .ok out →
      ∀ d ∈ out, d.slots.Pairwise slotLe := by
  constructor
  · decide
  · intro g out hout d hd
    unfold parse_excel_schedule at hout
    rcases hfh : find_header_row g with _ | p <;> rw [hfh] at hout
    · cases hout
    · obtain ⟨hr, cols⟩ := p
      injection hout with hbody
      subst hbody
      rw [List.mem_filterMap] at hd
      obtain ⟨day, _, hif⟩ := hd
      by_cases hp : ((cols.map (·.2)).contains day) = true
      · rw [if_pos hp] at hif
        injection hif with hd2
        subst hd2
        exact List.sorted_insertionSort slotLe _
      · rw [if_neg hp] at hif
        cases hif

/-- C7 (witness): the round trip at 8:30, and the sortedness of the populated
Sunday slot list of the full fixture grid. -/
theorem C7_witness :
    parse_time_for_sort (format_time_et 8 30) = (60 * 8 + 30 : Int) ∧
    (⟨"Sunday".toList, [],
      [⟨"12:00 AM".toList, "Dragnet".toList, []⟩,
       ⟨"12:30 AM".toList, "12-25-1945".toList, []⟩,
       ⟨"2:00 AM".toList, "Suspense".toList, []⟩]⟩ : DayOut).slots.Pairwise slotLe :=
  ⟨C7_roundtrip_and_sorted.1 8 (by decide) 30 (by decide),
   C7_roundtrip_and_sorted.2 fullGrid fullGridOut (by rfl) _ (by decide)⟩

end RC
